import Mathlib

/-!
Shallow embedding of the Wingocash server game engine
(`src/server/routes.ts`, `src/server/storage.ts`, `src/shared/schema.ts`).

Monetary values travel through the system as strings: the TypeScript code
stores decimal strings, converts them with `parseFloat` / `parseInt`, computes
with JS numbers and writes them back with `Number.prototype.toString`.  We
model JS numbers by exact rationals (ℚ): every concrete value appearing in the
theorems below is exactly representable, with arithmetic matching the doubles
the source would produce, and `Number.prototype.toString` on an exact decimal
value prints the shortest decimal expansion, which is what `decToString`
computes.
-/

namespace Wingocash

/-! ### Digit and string primitives (models of JS number formatting/parsing) -/

/-- Fuel-driven base-10 digit list, least significant digit first.
`natDigitsF fuel n = []` once fuel runs out; with `n < 10 ^ fuel` it is the
full digit expansion (empty for 0). -/
def natDigitsF : Nat → Nat → List Nat
  | 0, _ => []
  | fuel + 1, n => if n = 0 then [] else n % 10 :: natDigitsF fuel (n / 10)

/-- Base-10 digits of `n`, least significant first (`[]` for 0). -/
def natDigits (n : Nat) : List Nat := natDigitsF n n

/-- Value of a least-significant-first digit list. -/
def ofD (L : List Nat) : Nat := L.foldr (fun d r => d + 10 * r) 0

/-- Value of a most-significant-first digit list (how a parser folds digits). -/
def digitsToNat (ds : List Nat) : Nat := ds.foldl (fun a d => 10 * a + d) 0

/-- Render a least-significant-first digit list as characters, most
significant first; renders `[]` (the number 0) as `"0"`. -/
def renderDigits (L : List Nat) : List Char :=
  if L = [] then ['0'] else (L.map Nat.digitChar).reverse

/-- Model of JS `Number.prototype.toString` on a natural number. -/
def natToString (n : Nat) : String := String.mk (renderDigits (natDigits n))

/-- Model of JS `String.prototype.padStart(3, '0')`. -/
def padStart3 (s : String) : String :=
  if s.length < 3 then String.mk (List.replicate (3 - s.length) '0') ++ s else s

/-- Numeric value of a decimal digit character, if it is one. -/
def digToNat (c : Char) : Option Nat :=
  if '0' ≤ c ∧ c ≤ '9' then some (c.toNat - 48) else none

/-- Split a leading run of decimal digit characters (most significant first)
from the rest of the input. -/
def takeDigits : List Char → List Nat × List Char
  | [] => ([], [])
  | c :: t =>
    match digToNat c with
    | some d => let p := takeDigits t; (d :: p.1, p.2)
    | none => ([], c :: t)

/-- Strip an optional leading sign; returns whether the value is negated and
the remaining characters. -/
def parseSign (cs : List Char) : Bool × List Char :=
  match cs with
  | c :: t => if c = '-' then (true, t) else if c = '+' then (false, t) else (false, cs)
  | [] => (false, cs)

/-- Fractional contribution after the integer digits: a `'.'` followed by
digits contributes `digits / 10 ^ count`; anything else contributes 0
(JS `parseFloat` ignores trailing garbage). -/
def fracValue (rest : List Char) : ℚ :=
  match rest with
  | c :: t =>
    if c = '.' then
      ((digitsToNat (takeDigits t).1 : Nat) : ℚ) / (10 : ℚ) ^ (takeDigits t).1.length
    else 0
  | [] => 0

/-- Model of JS `parseFloat` on a character list: optional sign, a nonempty
run of digits, optionally a point and more digits; trailing garbage is
ignored; `none` models `NaN`. -/
def parseFloatChars (cs : List Char) : Option ℚ :=
  let sgn := parseSign cs
  let p := takeDigits sgn.2
  if p.1 = [] then none
  else
    let v : ℚ := ((digitsToNat p.1 : Nat) : ℚ) + fracValue p.2
    some (if sgn.1 then -v else v)

/-- Model of JS `parseFloat` on a string. -/
def parseFloatJS (s : String) : Option ℚ := parseFloatChars s.toList

/-- Model of JS `parseInt` on a character list: optional sign then a nonempty
run of digits; everything after (including a decimal point) is ignored;
`none` models `NaN`. -/
def parseIntChars (cs : List Char) : Option Int :=
  let sgn := parseSign cs
  let p := takeDigits sgn.2
  if p.1 = [] then none
  else some (if sgn.1 then -(digitsToNat p.1 : Int) else (digitsToNat p.1 : Int))

/-- Model of JS `parseInt` on a string. -/
def parseIntJS (s : String) : Option Int := parseIntChars s.toList

/-- Smallest exponent `k < 40` such that `q * 10 ^ k` is an integer, when one
exists.  Every monetary value the engine manipulates is such a decimal. -/
def decExp (q : ℚ) : Option Nat :=
  (List.range 40).find? (fun k => (q * (10 : ℚ) ^ k).den == 1)

/-- Digits of `m` padded with zeros to length at least `k + 1`, so a
`k`-fractional-digit expansion always has an integer digit. -/
def paddedDigits (k m : Nat) : List Nat :=
  natDigits m ++ List.replicate (k + 1 - (natDigits m).length) 0

/-- The characters of the decimal expansion of `m / 10 ^ k` given the padded
digit list: integer digits, then (for `k ≠ 0`) a point and `k` fractional
digits. -/
def bodyChars (k : Nat) (padded : List Nat) : List Char :=
  ((padded.drop k).map Nat.digitChar).reverse ++
    (if k = 0 then [] else '.' :: ((padded.take k).map Nat.digitChar).reverse)

/-- Model of JS `Number.prototype.toString` on a value that is an exact
decimal: shortest decimal expansion, no trailing fractional zeros, no point
for integers (`40 ↦ "40"`, `19.5 ↦ "19.5"`).  The `"NaN"` branch is
unreachable for the decimals the engine produces. -/
def decToString (q : ℚ) : String :=
  match decExp q with
  | none => "NaN"
  | some k =>
    (if q < 0 then "-" else "") ++
      String.mk (bodyChars k (paddedDigits k (q * (10 : ℚ) ^ k).num.natAbs))

/-- JS `(a * m).toString()` where `a` came from `parseFloat` (`none` = NaN). -/
def jsMulToString (a : Option ℚ) (m : ℚ) : String :=
  match a with
  | some x => decToString (x * m)
  | none => "NaN"

/-- JS `(a + b).toString()` for two `parseFloat` results. -/
def jsAddToString (a b : Option ℚ) : String :=
  match a, b with
  | some x, some y => decToString (x + y)
  | _, _ => "NaN"

/-- JS `(a - b).toString()` for two `parseFloat` results. -/
def jsSubToString (a b : Option ℚ) : String :=
  match a, b with
  | some x, some y => decToString (x - y)
  | _, _ => "NaN"

/-- JS `a < b` for two `parseFloat` results: any comparison with NaN is
false. -/
def jsLt (a b : Option ℚ) : Bool :=
  match a, b with
  | some x, some y => x < y
  | _, _ => false

/-! ### Data model (`src/shared/schema.ts`) -/

/-- Row of the `users` table. -/
structure User where
  id : Nat
  username : String
  password : String
  balance : String
deriving DecidableEq, Repr

/-- Row of the `game_rounds` table.  `rounds` lists below are kept most
recent first, modelling `ORDER BY created_at DESC` over serially created
rows. -/
structure GameRound where
  id : Nat
  periodNumber : String
  result : String
  number : Int
deriving DecidableEq, Repr

/-- Row of the `bets` table. -/
structure Bet where
  id : Nat
  userId : Nat
  roundId : Nat
  betType : String
  betValue : String
  amount : String
  payout : String
  status : String
deriving DecidableEq, Repr

/-- Database state.  `rounds` is most recent first; serial id counters are
explicit. -/
structure DB where
  users : List User
  rounds : List GameRound
  bets : List Bet
  nextUserId : Nat
  nextRoundId : Nat
  nextBetId : Nat
deriving DecidableEq, Repr

/-! ### Storage operations (`src/server/storage.ts`) -/

/-- `DatabaseStorage.getUser`. -/
def getUser (db : DB) (id : Nat) : Option User :=
  db.users.find? (fun u => u.id = id)

/-- `DatabaseStorage.getUserByUsername`. -/
def getUserByUsername (db : DB) (username : String) : Option User :=
  db.users.find? (fun u => u.username = username)

/-- Runtime shape of the object passed to `createUser`: the TS type only has
`username`/`password`, but at runtime a caller could smuggle a `balance`
key — the source spreads the input and then writes `balance: "50.00"` after
the spread, so such a key is always overridden. -/
structure RegisterInput where
  username : String
  password : String
  balance : Option String
deriving DecidableEq, Repr

/-- `DatabaseStorage.createUser`: inserts
`{ ...insertUser, balance: "50.00" }` — the literal `balance` field follows
the spread, so it wins regardless of the input. -/
def createUser (db : DB) (ins : RegisterInput) : DB × User :=
  let u : User :=
    { id := db.nextUserId, username := ins.username, password := ins.password,
      balance := "50.00" }
  ({ db with users := u :: db.users, nextUserId := db.nextUserId + 1 }, u)

/-- `DatabaseStorage.updateUserBalance`. -/
def updateUserBalance (db : DB) (userId : Nat) (newBalance : String) : DB :=
  { db with users := db.users.map (fun u =>
      if u.id = userId then { u with balance := newBalance } else u) }

/-- `DatabaseStorage.createGameRound` (insert with serial id; prepending
keeps the list most recent first). -/
def createGameRound (db : DB) (periodNumber result : String) (number : Int) :
    DB × GameRound :=
  let r : GameRound :=
    { id := db.nextRoundId, periodNumber := periodNumber, result := result,
      number := number }
  ({ db with rounds := r :: db.rounds, nextRoundId := db.nextRoundId + 1 }, r)

/-- `DatabaseStorage.getCurrentRound`: most recent round. -/
def getCurrentRound (db : DB) : Option GameRound := db.rounds.head?

/-- `DatabaseStorage.getRecentRounds`. -/
def getRecentRounds (db : DB) (limit : Nat) : List GameRound :=
  db.rounds.take limit

/-- Fields of a bet insert (`insertBetSchema` fields plus the round id the
route adds). -/
structure BetInsert where
  userId : Nat
  roundId : Nat
  betType : String
  betValue : String
  amount : String
deriving DecidableEq, Repr

/-- `DatabaseStorage.createBet`: the `payout`/`status` columns take their
schema defaults `"0.00"` / `"pending"`. -/
def createBet (db : DB) (d : BetInsert) : DB × Bet :=
  let b : Bet :=
    { id := db.nextBetId, userId := d.userId, roundId := d.roundId,
      betType := d.betType, betValue := d.betValue, amount := d.amount,
      payout := "0.00", status := "pending" }
  ({ db with bets := b :: db.bets, nextBetId := db.nextBetId + 1 }, b)

/-- `DatabaseStorage.getBetsByRoundId`. -/
def getBetsByRoundId (db : DB) (roundId : Nat) : List Bet :=
  db.bets.filter (fun b => b.roundId = roundId)

/-- `DatabaseStorage.updateBetResult`. -/
def updateBetResult (db : DB) (betId : Nat) (status payout : String) : DB :=
  { db with bets := db.bets.map (fun b =>
      if b.id = betId then { b with status := status, payout := payout }
      else b) }

/-! ### The live game engine (`src/server/routes.ts`) -/

/-- Mutable fields of `LiveGameEngine` that the sequencer uses. -/
structure Engine where
  basePeriodNumber : String
  currentSequence : Nat
deriving DecidableEq, Repr

/-- The engine's initial field values (`basePeriodNumber = "127927270"`,
`currentSequence = 867`). -/
def initialEngine : Engine :=
  { basePeriodNumber := "127927270", currentSequence := 867 }

/-- `LiveGameEngine.generatePeriodNumber`: pre-increment the counter, wrap
to 0 past 999, return the base concatenated with the counter padded to three
digits. -/
def generatePeriodNumber (e : Engine) : Engine × String :=
  let s1 := e.currentSequence + 1
  let s2 := if s1 > 999 then 0 else s1
  ({ e with currentSequence := s2 },
    e.basePeriodNumber ++ padStart3 (natToString s2))

/-- State successor of one sequencer call. -/
def seqStep (e : Engine) : Engine := (generatePeriodNumber e).1

/-- The label returned by the `n`-th sequencer call (1-based) when starting
from state `e`. -/
def labelAt (e : Engine) (n : Nat) : String :=
  (generatePeriodNumber (seqStep^[n - 1] e)).2

/-- A round outcome as the engine passes it around. -/
structure RoundResult where
  color : String
  number : Int
deriving DecidableEq, Repr

/-- `LiveGameEngine.generateResult`: `r1` models the `Math.random()` draw
for the number, `r2` the `Math.random()` draw of the color tie-break. -/
def generateResult (r1 r2 : ℚ) : RoundResult :=
  let number : Int := ⌊r1 * 10⌋
  let color : String :=
    if number = 0 then (if r2 < 1 / 2 then "red" else "violet")
    else if number = 5 then (if r2 < 1 / 2 then "green" else "violet")
    else if ([1, 3, 7, 9] : List Int).contains number then "green"
    else "red"
  { color := color, number := number }

/-- The win decision of `LiveGameEngine.processRoundResult` for one bet.
In the number branch the source compares `parseInt(bet.betValue) ===
result.number`; a `NaN` parse (modelled by `none`) makes that comparison
false, which is exactly `parseIntJS bet.betValue = some res.number`. -/
def betWon (res : RoundResult) (bet : Bet) : Bool :=
  if bet.betType = "color" then bet.betValue = res.color
  else if bet.betType = "number" then parseIntJS bet.betValue = some res.number
  else false

/-- The multiplier `processRoundResult` applies to a winning bet. -/
def betMultiplier (res : RoundResult) (bet : Bet) : ℚ :=
  if bet.betType = "color" then (if res.color = "violet" then 4.5 else 1.95)
  else 9

/-- The payout string `processRoundResult` persists for one bet:
`(parseFloat(bet.amount) * multiplier).toString()` when won, else `"0.00"`. -/
def betPayoutStr (res : RoundResult) (bet : Bet) : String :=
  if betWon res bet then jsMulToString (parseFloatJS bet.amount) (betMultiplier res bet)
  else "0.00"

/-- The status string `processRoundResult` persists for one bet. -/
def betStatusStr (res : RoundResult) (bet : Bet) : String :=
  if betWon res bet then "won" else "lost"

/-- One iteration of the `for (const bet of bets)` loop in
`processRoundResult`: persist the bet's result, then, for a winner whose
user exists, credit `parseFloat(balance) + parseFloat(payout)`. -/
def settleBetStep (res : RoundResult) (db : DB) (bet : Bet) : DB :=
  let db1 := updateBetResult db bet.id (betStatusStr res bet) (betPayoutStr res bet)
  if betWon res bet then
    match getUser db1 bet.userId with
    | some user =>
      updateUserBalance db1 bet.userId
        (jsAddToString (parseFloatJS user.balance)
          (parseFloatJS (betPayoutStr res bet)))
    | none => db1
  else db1

/-- The terminal record settlement leaves for a bet: only `status` and
`payout` change. -/
def settledBet (res : RoundResult) (b : Bet) : Bet :=
  { b with status := betStatusStr res b, payout := betPayoutStr res b }

/-- The per-row update settlement of a winning bet `b` performs on the bets
table. -/
def wonUpd (res : RoundResult) (b : Bet) (x : Bet) : Bet :=
  if x.id = b.id then { x with status := "won", payout := betPayoutStr res b } else x

/-- `LiveGameEngine.processRoundResult`: fetch the round's bets once, then
settle them in order. -/
def processRoundResult (db : DB) (roundId : Nat) (res : RoundResult) : DB :=
  (getBetsByRoundId db roundId).foldl (settleBetStep res) db

/-- `LiveGameEngine.createNewRound` (one engine tick): issue the next period
label, draw the outcome, insert the new round, then settle the
second-most-recent round if one exists.  Returns the new engine state, the
new database state and the new `currentRoundId`. -/
def createNewRound (e : Engine) (db : DB) (r1 r2 : ℚ) : Engine × DB × Nat :=
  let g := generatePeriodNumber e
  let res := generateResult r1 r2
  let c := createGameRound db g.2 res.color res.number
  let recent := getRecentRounds c.1 2
  let db2 :=
    if h : 1 < recent.length then
      let prev := recent.get ⟨1, h⟩
      processRoundResult c.1 prev.id { color := prev.result, number := prev.number }
    else c.1
  (g.1, db2, c.2.id)

/-! ### The bet-placement route (`POST /api/game/bet` in `routes.ts`) -/

/-- The raw request body: each field may be missing (zod validation rejects
a body with a missing or mistyped field). -/
structure BetReqBody where
  userId : Option Nat
  betType : Option String
  betValue : Option String
  amount : Option String
deriving DecidableEq, Repr

/-- The fields `insertBetSchema` validates (`userId`, `betType`, `betValue`,
`amount`). -/
structure BetFields where
  userId : Nat
  betType : String
  betValue : String
  amount : String
deriving DecidableEq, Repr

/-- `insertBetSchema.parse`: succeeds exactly when all four picked fields
are present with the right types. -/
def insertBetSchemaParse (b : BetReqBody) : Option BetFields :=
  match b.userId, b.betType, b.betValue, b.amount with
  | some u, some t, some v, some a =>
    some { userId := u, betType := t, betValue := v, amount := a }
  | _, _, _, _ => none

/-- Persistence-failure injection: which of the two mutating storage calls
of the handler throw.  A thrown storage promise is caught by the handler's
`try/catch`, which replies 500. -/
structure FailFlags where
  createBetFails : Bool
  updateBalanceFails : Bool
deriving DecidableEq, Repr

/-- No storage failure. -/
def noFail : FailFlags := { createBetFails := false, updateBalanceFails := false }

/-- The handler's possible responses. -/
inductive BetResp where
  /-- 200 with the created bet. -/
  | placed (betId : Nat)
  /-- 400 `'No active round'`. -/
  | noActiveRound
  /-- 404 `'User not found'`. -/
  | userNotFound
  /-- 400 `'Insufficient balance'`. -/
  | insufficientBalance
  /-- 500 `'Failed to place bet'` (zod throw or storage throw). -/
  | serverError
deriving DecidableEq, Repr

/-- The `POST /api/game/bet` handler: current round, zod validation, user
lookup, `parseFloat` balance check, bet insert, then balance deduction.
The returned `DB` is the state after the handler finishes (on an error
thrown between the two writes, the bet insert has already happened). -/
def placeBet (db : DB) (body : BetReqBody) (ff : FailFlags) : BetResp × DB :=
  match getCurrentRound db with
  | none => (BetResp.noActiveRound, db)
  | some currentRound =>
    match insertBetSchemaParse body with
    | none => (BetResp.serverError, db)
    | some v =>
      match getUser db v.userId with
      | none => (BetResp.userNotFound, db)
      | some user =>
        let betAmount := parseFloatJS v.amount
        let userBalance := parseFloatJS user.balance
        if jsLt userBalance betAmount then (BetResp.insufficientBalance, db)
        else if ff.createBetFails then (BetResp.serverError, db)
        else
          let c := createBet db
            { userId := v.userId, roundId := currentRound.id,
              betType := v.betType, betValue := v.betValue, amount := v.amount }
          if ff.updateBalanceFails then (BetResp.serverError, c.1)
          else
            (BetResp.placed c.2.id,
              updateUserBalance c.1 v.userId (jsSubToString userBalance betAmount))

/-- Number of characters after the first `'.'`, if the string contains
one — the claim "exactly 2 fractional digits" is `fracLen s = some 2`. -/
def fracLen (s : String) : Option Nat :=
  match s.toList.dropWhile (fun c => c ≠ '.') with
  | _ :: t => some t.length
  | [] => none

/-- The bet row the handler inserts for validated fields `v` against the
current round `cr`, with the next serial id `i`. -/
def betRecord (v : BetFields) (cr : GameRound) (i : Nat) : Bet :=
  { id := i, userId := v.userId, roundId := cr.id, betType := v.betType,
    betValue := v.betValue, amount := v.amount, payout := "0.00",
    status := "pending" }

/-- The database state right after `createBet` inserted bet `b`. -/
def withNewBet (db : DB) (b : Bet) : DB :=
  { db with bets := b :: db.bets, nextBetId := db.nextBetId + 1 }

/-- The per-row update `updateUserBalance` performs on the users table. -/
def balanceUpd (uid : Nat) (s : String) (x : User) : User :=
  if x.id = uid then { x with balance := s } else x

/-- The round record a tick inserts (outcome fixed at creation). -/
def newRoundRec (e : Engine) (db : DB) (r1 r2 : ℚ) : GameRound :=
  { id := db.nextRoundId, periodNumber := (generatePeriodNumber e).2,
    result := (generateResult r1 r2).color,
    number := (generateResult r1 r2).number }

/-- Numeric value of the payout a bet earns (`amount × multiplier`); 0 for
an unparseable amount. -/
def betPayoutVal (res : RoundResult) (b : Bet) : ℚ :=
  match parseFloatJS b.amount with
  | some a => a * betMultiplier res b
  | none => 0

/-- Total payout owed to user `uid` by the bets of `L`: the sum of
`amount × multiplier` over the winning bets of `L` owned by `uid`. -/
def winCredit (res : RoundResult) (uid : Nat) (L : List Bet) : ℚ :=
  (L.map (fun b =>
    if b.userId = uid ∧ betWon res b = true then betPayoutVal res b else 0)).sum

/-! ### Concrete sample data for witnesses and counterexamples -/

/-- A user with the initial balance. -/
def sampleUser : User :=
  { id := 1, username := "alice", password := "pw", balance := "50.00" }

/-- A current round whose outcome is red 2. -/
def sampleRound : GameRound :=
  { id := 1, periodNumber := "127927270868", result := "red", number := 2 }

/-- A database with one user, one round and no bets. -/
def sampleDB : DB :=
  { users := [sampleUser], rounds := [sampleRound], bets := [],
    nextUserId := 2, nextRoundId := 2, nextBetId := 1 }

/-- A well-formed bet request: 10.00 on color red for user 1. -/
def sampleBody : BetReqBody :=
  { userId := some 1, betType := some "color", betValue := some "red",
    amount := some "10.00" }

/-- A pending 10.00 color bet on red for round 1 by user 1. -/
def wBet : Bet :=
  { id := 1, userId := 1, roundId := 1, betType := "color", betValue := "red",
    amount := "10.00", payout := "0.00", status := "pending" }

/-- The outcome red 2. -/
def wRes : RoundResult := { color := "red", number := 2 }

/-- A database holding `wBet` on round 1. -/
def wDB : DB :=
  { users := [sampleUser], rounds := [sampleRound], bets := [wBet],
    nextUserId := 2, nextRoundId := 2, nextBetId := 2 }

/-- A pending winning bet whose owner (user 77) does not exist. -/
def orphanBet : Bet :=
  { id := 1, userId := 77, roundId := 1, betType := "color",
    betValue := "red", amount := "10.00", payout := "0.00", status := "pending" }

/-- A database holding `orphanBet` but no users at all. -/
def orphanDB : DB :=
  { users := [], rounds := [sampleRound], bets := [orphanBet],
    nextUserId := 1, nextRoundId := 2, nextBetId := 2 }

/-- A round that came out violet 0. -/
def violetRes : RoundResult := { color := "violet", number := 0 }

/-- A pending 10.00 color bet on violet for round 1 by user 1. -/
def violetBet : Bet :=
  { id := 1, userId := 1, roundId := 1, betType := "color",
    betValue := "violet", amount := "10.00", payout := "0.00",
    status := "pending" }

/-- A round record that came out violet 0. -/
def violetRound : GameRound :=
  { id := 1, periodNumber := "127927270868", result := "violet", number := 0 }

/-- A database holding `violetBet`. -/
def violetDB : DB :=
  { users := [sampleUser], rounds := [violetRound], bets := [violetBet],
    nextUserId := 2, nextRoundId := 2, nextBetId := 2 }

/-! ### Helper lemmas on digits and padding -/

theorem natDigitsF_length_le (fuel : Nat) :
    ∀ n k : Nat, n < 10 ^ k → (natDigitsF fuel n).length ≤ k := by
  induction fuel with
  | zero => intro n k _; simp [natDigitsF]
  | succ fuel ih =>
    intro n k h
    by_cases hn : n = 0
    · simp [natDigitsF, hn]
    · rcases k with _ | k
      · exact absurd (by omega : n = 0) hn
      · have hdiv : n / 10 < 10 ^ k := by
          rw [Nat.div_lt_iff_lt_mul (by norm_num)]
          calc n < 10 ^ (k + 1) := h
          _ = 10 ^ k * 10 := by ring
        simp only [natDigitsF, hn, if_false, List.length_cons]
        exact Nat.succ_le_succ (ih _ _ hdiv)

theorem natDigits_length_le (n k : Nat) (h : n < 10 ^ k) :
    (natDigits n).length ≤ k :=
  natDigitsF_length_le n n k h

theorem renderDigits_length (L : List Nat) :
    (renderDigits L).length = max 1 L.length := by
  by_cases h : L = []
  · simp [renderDigits, h]
  · have hpos : 0 < L.length := List.length_pos.mpr h
    simp [renderDigits, h]
    omega

theorem natToString_length_le (n k : Nat) (hk : 1 ≤ k) (h : n < 10 ^ k) :
    (natToString n).length ≤ k := by
  have h1 := natDigits_length_le n k h
  have h2 : (natToString n).length = (renderDigits (natDigits n)).length := rfl
  rw [h2, renderDigits_length]
  omega

theorem string_length_mk (l : List Char) : (String.mk l).length = l.length :=
  rfl

theorem padStart3_length (s : String) (h : s.length ≤ 3) :
    (padStart3 s).length = 3 := by
  unfold padStart3
  by_cases hlt : s.length < 3
  · simp only [hlt, if_true]
    rw [String.length_append, string_length_mk, List.length_replicate]
    omega
  · simp only [hlt, if_false]
    omega

/-! ### Claims about the period sequencer (C6, C7, C8) -/

/-- C7: each sequencer call increments the counter by exactly one, wrapping
to 0 when it passes 999, and returns the fixed base string concatenated with
the counter zero-padded to 3 digits. -/
theorem sequencer_step_spec (e : Engine) (h : e.currentSequence ≤ 999) :
    (generatePeriodNumber e).1.currentSequence = (e.currentSequence + 1) % 1000 ∧
    (e.currentSequence < 999 →
      (generatePeriodNumber e).1.currentSequence = e.currentSequence + 1) ∧
    (e.currentSequence = 999 → (generatePeriodNumber e).1.currentSequence = 0) ∧
    (generatePeriodNumber e).1.basePeriodNumber = e.basePeriodNumber ∧
    (generatePeriodNumber e).2 =
      e.basePeriodNumber ++
        padStart3 (natToString (generatePeriodNumber e).1.currentSequence) ∧
    (padStart3 (natToString (generatePeriodNumber e).1.currentSequence)).length
      = 3 := by
  have hseq : (generatePeriodNumber e).1.currentSequence =
      if e.currentSequence + 1 > 999 then 0 else e.currentSequence + 1 := rfl
  have hle : (generatePeriodNumber e).1.currentSequence ≤ 999 := by
    rw [hseq]; split <;> omega
  refine ⟨?_, ?_, ?_, rfl, rfl, ?_⟩
  · rw [hseq]; split <;> omega
  · intro hlt; rw [hseq]; split <;> omega
  · intro h999; rw [hseq]; split <;> omega
  · apply padStart3_length
    apply natToString_length_le _ 3 (by norm_num)
    omega

/-- C7 witness: the step specification instantiated at the engine's initial
state (base `"127927270"`, counter 867). -/
theorem sequencer_step_spec_witness :
    initialEngine.currentSequence ≤ 999 ∧
    ((generatePeriodNumber initialEngine).1.currentSequence =
        (initialEngine.currentSequence + 1) % 1000 ∧
    (initialEngine.currentSequence < 999 →
      (generatePeriodNumber initialEngine).1.currentSequence =
        initialEngine.currentSequence + 1) ∧
    (initialEngine.currentSequence = 999 →
      (generatePeriodNumber initialEngine).1.currentSequence = 0) ∧
    (generatePeriodNumber initialEngine).1.basePeriodNumber =
      initialEngine.basePeriodNumber ∧
    (generatePeriodNumber initialEngine).2 =
      initialEngine.basePeriodNumber ++
        padStart3
          (natToString (generatePeriodNumber initialEngine).1.currentSequence) ∧
    (padStart3
        (natToString (generatePeriodNumber initialEngine).1.currentSequence)).length
      = 3) :=
  ⟨by decide, sequencer_step_spec initialEngine (by decide)⟩

theorem seqStep_iterate (b : String) (c : Nat) (hc : c ≤ 999) :
    ∀ n : Nat, seqStep^[n] ⟨b, c⟩ = ⟨b, (c + n) % 1000⟩ := by
  intro n
  induction n with
  | zero => simp; omega
  | succ n ih =>
    rw [Function.iterate_succ_apply', ih]
    have hstep : seqStep ⟨b, (c + n) % 1000⟩ =
        ⟨b, if (c + n) % 1000 + 1 > 999 then 0 else (c + n) % 1000 + 1⟩ := rfl
    rw [hstep]
    have : (if (c + n) % 1000 + 1 > 999 then 0 else (c + n) % 1000 + 1) =
        (c + (n + 1)) % 1000 := by split <;> omega
    rw [this]

/-- C6 counterexample: starting the sequencer from counter 867, the 133rd
call already wraps the suffix to `"000"` — after 133 calls the counter is 0,
not 999 as the claim states. -/
theorem sequencer_133_calls_counterexample :
    (seqStep^[133] initialEngine).currentSequence = 0 ∧
    labelAt initialEngine 133 = "127927270000" ∧
    labelAt initialEngine 133 ≠ "127927270999" := by
  have h133 : seqStep^[132] initialEngine = ⟨"127927270", 999⟩ := by
    rw [show initialEngine = ⟨"127927270", 867⟩ from rfl,
      seqStep_iterate "127927270" 867 (by norm_num) 132]
  have hlab : labelAt initialEngine 133 =
      (generatePeriodNumber (⟨"127927270", 999⟩ : Engine)).2 := by
    unfold labelAt
    rw [show (133 : Nat) - 1 = 132 from rfl, h133]
  refine ⟨?_, ?_, ?_⟩
  · rw [show (133 : Nat) = 132 + 1 from rfl, Function.iterate_succ_apply', h133]
    rfl
  · rw [hlab]; rfl
  · rw [hlab]; decide

/-- C6 amended: starting from counter 867, 132 calls leave the 3-digit
suffix at 999 (the 132nd call returns `"…999"`), and the one further (133rd)
call wraps the suffix from 999 to 000. -/
theorem sequencer_wrap_after_132_calls :
    (seqStep^[132] initialEngine).currentSequence = 999 ∧
    labelAt initialEngine 132 = "127927270999" ∧
    labelAt initialEngine 133 = "127927270000" := by
  have h131 : seqStep^[131] initialEngine = ⟨"127927270", 998⟩ := by
    rw [show initialEngine = ⟨"127927270", 867⟩ from rfl,
      seqStep_iterate "127927270" 867 (by norm_num) 131]
  have h132 : seqStep^[132] initialEngine = ⟨"127927270", 999⟩ := by
    rw [show initialEngine = ⟨"127927270", 867⟩ from rfl,
      seqStep_iterate "127927270" 867 (by norm_num) 132]
  refine ⟨by rw [h132], ?_, ?_⟩
  · unfold labelAt
    rw [show (132 : Nat) - 1 = 131 from rfl, h131]
    rfl
  · unfold labelAt
    rw [show (133 : Nat) - 1 = 132 from rfl, h132]
    rfl

/-- C8: the sequencer state is periodic with period 1000 (fixed base string,
counter wrapping mod 1000), so a run long enough to issue 1001 labels
re-issues a previously issued label: the 1001st label equals the very first
one.  This contradicts the uniqueness the claim (and the schema's unique
`period_number` column) requires, so the code, not the claim, is at fault. -/
theorem period_label_repeats_after_1000 :
    seqStep^[1000] initialEngine = initialEngine ∧
    labelAt initialEngine 1 = "127927270868" ∧
    labelAt initialEngine 1001 = "127927270868" := by
  have h1000 : seqStep^[1000] initialEngine = initialEngine := by
    rw [show initialEngine = ⟨"127927270", 867⟩ from rfl,
      seqStep_iterate "127927270" 867 (by norm_num) 1000]
  refine ⟨h1000, rfl, ?_⟩
  unfold labelAt
  rw [show (1001 : Nat) - 1 = 1000 from rfl, h1000]
  rfl

/-! ### Claim about the outcome generator (C5) -/

/-- C5: for random draws `r1, r2 ∈ [0, 1)`, the generated number lies in
0–9; numbers 1, 3, 7, 9 always yield green; 2, 4, 6, 8 always yield red;
number 0 yields red or violet and number 5 green or violet by the `< 1/2`
tie-break on the second draw; no other color is ever produced. -/
theorem outcome_generator_spec (r1 r2 : ℚ) (h0 : 0 ≤ r1) (h1 : r1 < 1)
    (h2 : 0 ≤ r2) (h3 : r2 < 1) :
    0 ≤ (generateResult r1 r2).number ∧ (generateResult r1 r2).number ≤ 9 ∧
    ((generateResult r1 r2).number = 1 ∨ (generateResult r1 r2).number = 3 ∨
      (generateResult r1 r2).number = 7 ∨ (generateResult r1 r2).number = 9 →
      (generateResult r1 r2).color = "green") ∧
    ((generateResult r1 r2).number = 2 ∨ (generateResult r1 r2).number = 4 ∨
      (generateResult r1 r2).number = 6 ∨ (generateResult r1 r2).number = 8 →
      (generateResult r1 r2).color = "red") ∧
    ((generateResult r1 r2).number = 0 →
      (generateResult r1 r2).color = if r2 < 1 / 2 then "red" else "violet") ∧
    ((generateResult r1 r2).number = 5 →
      (generateResult r1 r2).color = if r2 < 1 / 2 then "green" else "violet") ∧
    ((generateResult r1 r2).color = "red" ∨
      (generateResult r1 r2).color = "green" ∨
      (generateResult r1 r2).color = "violet") := by
  have hnum : (generateResult r1 r2).number = ⌊r1 * 10⌋ := rfl
  have hlow : 0 ≤ ⌊r1 * 10⌋ := by
    rw [Int.floor_nonneg]
    positivity
  have hhigh : ⌊r1 * 10⌋ ≤ 9 := by
    have : ⌊r1 * 10⌋ < 10 := by
      rw [Int.floor_lt]
      push_cast
      nlinarith
    omega
  have hcolor : (generateResult r1 r2).color =
      (if ⌊r1 * 10⌋ = 0 then (if r2 < 1 / 2 then "red" else "violet")
      else if ⌊r1 * 10⌋ = 5 then (if r2 < 1 / 2 then "green" else "violet")
      else if ([1, 3, 7, 9] : List Int).contains ⌊r1 * 10⌋ then "green"
      else "red") := rfl
  refine ⟨by rw [hnum]; exact hlow, by rw [hnum]; exact hhigh, ?_, ?_, ?_, ?_, ?_⟩
  · rw [hnum, hcolor]
    rintro (h | h | h | h) <;> rw [h] <;> rfl
  · rw [hnum, hcolor]
    rintro (h | h | h | h) <;> rw [h] <;> rfl
  · rw [hnum, hcolor]
    intro h; rw [h]; rfl
  · rw [hnum, hcolor]
    intro h; rw [h]; rfl
  · rw [hcolor]
    split
    · split <;> simp
    · split
      · split <;> simp
      · split <;> simp

/-- C5 witness: the generator specification instantiated at the concrete
draws `r1 = 17/20` (number 8) and `r2 = 1/4`. -/
theorem outcome_generator_spec_witness :
    ((0 : ℚ) ≤ 17 / 20 ∧ (17 / 20 : ℚ) < 1 ∧ (0 : ℚ) ≤ 1 / 4 ∧
        (1 / 4 : ℚ) < 1) ∧
    (0 ≤ (generateResult (17 / 20) (1 / 4)).number ∧
      (generateResult (17 / 20) (1 / 4)).number ≤ 9 ∧
    ((generateResult (17 / 20) (1 / 4)).number = 1 ∨
      (generateResult (17 / 20) (1 / 4)).number = 3 ∨
      (generateResult (17 / 20) (1 / 4)).number = 7 ∨
      (generateResult (17 / 20) (1 / 4)).number = 9 →
      (generateResult (17 / 20) (1 / 4)).color = "green") ∧
    ((generateResult (17 / 20) (1 / 4)).number = 2 ∨
      (generateResult (17 / 20) (1 / 4)).number = 4 ∨
      (generateResult (17 / 20) (1 / 4)).number = 6 ∨
      (generateResult (17 / 20) (1 / 4)).number = 8 →
      (generateResult (17 / 20) (1 / 4)).color = "red") ∧
    ((generateResult (17 / 20) (1 / 4)).number = 0 →
      (generateResult (17 / 20) (1 / 4)).color =
        if (1 / 4 : ℚ) < 1 / 2 then "red" else "violet") ∧
    ((generateResult (17 / 20) (1 / 4)).number = 5 →
      (generateResult (17 / 20) (1 / 4)).color =
        if (1 / 4 : ℚ) < 1 / 2 then "green" else "violet") ∧
    ((generateResult (17 / 20) (1 / 4)).color = "red" ∨
      (generateResult (17 / 20) (1 / 4)).color = "green" ∨
      (generateResult (17 / 20) (1 / 4)).color = "violet")) :=
  ⟨⟨by norm_num, by norm_num, by norm_num, by norm_num⟩,
    outcome_generator_spec (17 / 20) (1 / 4) (by norm_num) (by norm_num)
      (by norm_num) (by norm_num)⟩

/-! ### Digit arithmetic and the parse/print roundtrip -/

theorem digToNat_digitChar : ∀ d : Nat, d < 10 → digToNat (Nat.digitChar d) = some d := by
  decide

theorem digitChar_not_sign : ∀ d : Nat, d < 10 →
    Nat.digitChar d ≠ '-' ∧ Nat.digitChar d ≠ '+' := by
  decide

theorem takeDigits_append (M : List Nat) (hM : ∀ d ∈ M, d < 10)
    (rest : List Char)
    (hrest : rest = [] ∨ ∃ c t, rest = c :: t ∧ digToNat c = none) :
    takeDigits (M.map Nat.digitChar ++ rest) = (M, rest) := by
  induction M with
  | nil =>
    simp only [List.map_nil, List.nil_append]
    rcases hrest with rfl | ⟨c, t, rfl, hc⟩
    · rfl
    · simp [takeDigits, hc]
  | cons d M ih =>
    have hd : d < 10 := hM d (List.mem_cons_self d M)
    simp only [List.map_cons, List.cons_append, takeDigits,
      digToNat_digitChar d hd, List.append_eq]
    rw [ih (fun x hx => hM x (List.mem_cons_of_mem d hx))]

theorem digitsToNat_reverse (L : List Nat) : digitsToNat L.reverse = ofD L := by
  induction L with
  | nil => rfl
  | cons x t ih =>
    rw [List.reverse_cons]
    have h2 : digitsToNat (t.reverse ++ [x]) = 10 * digitsToNat t.reverse + x := by
      unfold digitsToNat
      rw [List.foldl_append]
      rfl
    have h3 : ofD (x :: t) = x + 10 * ofD t := rfl
    rw [h2, ih, h3]
    ring

theorem ofD_append (A B : List Nat) :
    ofD (A ++ B) = ofD A + 10 ^ A.length * ofD B := by
  induction A with
  | nil => simp [ofD]
  | cons a t ih =>
    have h1 : ofD ((a :: t) ++ B) = a + 10 * ofD (t ++ B) := rfl
    have h2 : ofD (a :: t) = a + 10 * ofD t := rfl
    rw [h1, ih, h2, List.length_cons]
    ring

theorem ofD_replicate_zero (j : Nat) : ofD (List.replicate j 0) = 0 := by
  induction j with
  | zero => rfl
  | succ j ih =>
    have h : ofD (List.replicate (j + 1) 0) = 0 + 10 * ofD (List.replicate j 0) :=
      rfl
    rw [h, ih]

theorem natDigitsF_lt (fuel : Nat) : ∀ n : Nat, ∀ d ∈ natDigitsF fuel n, d < 10 := by
  induction fuel with
  | zero => intro n d hd; simp [natDigitsF] at hd
  | succ fuel ih =>
    intro n d hd
    by_cases hn : n = 0
    · simp [natDigitsF, hn] at hd
    · simp only [natDigitsF, hn, if_false, List.mem_cons] at hd
      rcases hd with rfl | hd
      · exact Nat.mod_lt n (by norm_num)
      · exact ih (n / 10) d hd

theorem ofD_natDigitsF (fuel : Nat) :
    ∀ n : Nat, n < 10 ^ fuel → ofD (natDigitsF fuel n) = n := by
  induction fuel with
  | zero =>
    intro n h
    rw [pow_zero] at h
    have hn : n = 0 := by omega
    subst hn
    rfl
  | succ fuel ih =>
    intro n h
    by_cases hn : n = 0
    · simp [natDigitsF, hn, ofD]
    · have hdiv : n / 10 < 10 ^ fuel := by
        rw [Nat.div_lt_iff_lt_mul (by norm_num)]
        calc n < 10 ^ (fuel + 1) := h
        _ = 10 ^ fuel * 10 := by ring
      have h1 : natDigitsF (fuel + 1) n = n % 10 :: natDigitsF fuel (n / 10) := by
        simp [natDigitsF, hn]
      have h2 : ofD (n % 10 :: natDigitsF fuel (n / 10)) =
          n % 10 + 10 * ofD (natDigitsF fuel (n / 10)) := rfl
      rw [h1, h2, ih (n / 10) hdiv]
      omega

theorem ofD_natDigits (n : Nat) : ofD (natDigits n) = n :=
  ofD_natDigitsF n n (Nat.lt_pow_self (by norm_num) n)

theorem natDigits_lt (n : Nat) : ∀ d ∈ natDigits n, d < 10 :=
  natDigitsF_lt n n

theorem paddedDigits_length (k m : Nat) : k + 1 ≤ (paddedDigits k m).length := by
  unfold paddedDigits
  rw [List.length_append, List.length_replicate]
  omega

theorem paddedDigits_lt (k m : Nat) : ∀ d ∈ paddedDigits k m, d < 10 := by
  intro d hd
  unfold paddedDigits at hd
  rcases List.mem_append.mp hd with h | h
  · exact natDigits_lt m d h
  · rw [List.eq_of_mem_replicate h]
    norm_num

theorem ofD_paddedDigits (k m : Nat) : ofD (paddedDigits k m) = m := by
  unfold paddedDigits
  rw [ofD_append, ofD_replicate_zero, ofD_natDigits]
  ring

theorem decExp_den (q : ℚ) (k : Nat) (h : decExp q = some k) :
    (q * (10 : ℚ) ^ k).den = 1 := by
  have h2 := List.find?_some h
  simpa using h2

theorem decExp_isSome (q : ℚ) (j : Nat) (hj : j < 40)
    (h : (q * (10 : ℚ) ^ j).den = 1) : ∃ k, decExp q = some k := by
  have h2 : (decExp q).isSome := by
    unfold decExp
    rw [List.find?_isSome]
    exact ⟨j, List.mem_range.mpr hj, by simp [h]⟩
  exact Option.isSome_iff_exists.mp h2

theorem takeDigits_bodyChars (k : Nat) (padded : List Nat)
    (hd : ∀ d ∈ padded, d < 10) :
    takeDigits (bodyChars k padded) =
      ((padded.drop k).reverse,
        if k = 0 then []
        else '.' :: ((padded.take k).map Nat.digitChar).reverse) := by
  unfold bodyChars
  rw [← List.map_reverse]
  refine takeDigits_append _ ?_ _ ?_
  · intro x hx
    rw [List.mem_reverse] at hx
    exact hd x (List.drop_subset k padded hx)
  · by_cases hk : k = 0
    · left
      simp [hk]
    · right
      exact ⟨'.', ((padded.take k).map Nat.digitChar).reverse, by simp [hk],
        by decide⟩

theorem takeDigits_bodyChars_value (k : Nat) (padded : List Nat)
    (hlen : k + 1 ≤ padded.length) (hd : ∀ d ∈ padded, d < 10) :
    (takeDigits (bodyChars k padded)).1 ≠ [] ∧
    ((digitsToNat (takeDigits (bodyChars k padded)).1 : Nat) : ℚ) +
        fracValue (takeDigits (bodyChars k padded)).2 =
      (ofD padded : ℚ) / 10 ^ k := by
  rw [takeDigits_bodyChars k padded hd]
  have hdropne : padded.drop k ≠ [] := by
    intro hnil
    have h0 : (padded.drop k).length = 0 := by rw [hnil]; rfl
    rw [List.length_drop] at h0
    omega
  constructor
  · simpa [List.reverse_eq_nil_iff] using hdropne
  · rw [digitsToNat_reverse]
    have hsplit : ofD (padded.take k) + 10 ^ k * ofD (padded.drop k) = ofD padded := by
      have h1 := ofD_append (padded.take k) (padded.drop k)
      rw [List.take_append_drop] at h1
      rw [h1, List.length_take]
      have : k ⊓ padded.length = k := by
        rw [inf_eq_left]
        omega
      rw [this]
    have hQ : ((ofD (padded.take k)) : ℚ) +
        10 ^ k * ((ofD (padded.drop k)) : ℚ) = (ofD padded : ℚ) := by
      push_cast [← hsplit]
      ring
    have hpow : (10 : ℚ) ^ k ≠ 0 := by positivity
    by_cases hk : k = 0
    · subst hk
      rw [if_pos rfl]
      have hfv : fracValue ([] : List Char) = 0 := rfl
      rw [hfv, List.drop_zero, pow_zero, div_one, add_zero]
    · rw [if_neg hk]
      have hfv : fracValue ('.' :: ((padded.take k).map Nat.digitChar).reverse) =
          ((digitsToNat
              (takeDigits (((padded.take k).map Nat.digitChar).reverse)).1 : Nat) : ℚ) /
            (10 : ℚ) ^
              (takeDigits (((padded.take k).map Nat.digitChar).reverse)).1.length := by
        simp [fracValue]
      rw [hfv, ← List.map_reverse]
      have htd : takeDigits (((padded.take k).reverse).map Nat.digitChar) =
          ((padded.take k).reverse, []) := by
        have h3 := takeDigits_append ((padded.take k).reverse)
          (fun x hx => hd x (List.take_subset k padded (List.mem_reverse.mp hx)))
          [] (Or.inl rfl)
        simpa using h3
      rw [htd]
      simp only [digitsToNat_reverse, List.length_reverse, List.length_take]
      have hmin : k ⊓ padded.length = k := by
        rw [inf_eq_left]
        omega
      rw [hmin]
      field_simp
      linarith [hQ]

theorem parseFloatChars_eq (cs : List Char) :
    parseFloatChars cs =
      if (takeDigits (parseSign cs).2).1 = [] then none
      else some (if (parseSign cs).1
        then -(((digitsToNat (takeDigits (parseSign cs).2).1 : Nat) : ℚ) +
          fracValue (takeDigits (parseSign cs).2).2)
        else ((digitsToNat (takeDigits (parseSign cs).2).1 : Nat) : ℚ) +
          fracValue (takeDigits (parseSign cs).2).2) := rfl

theorem parseFloatChars_bodyChars (k : Nat) (padded : List Nat)
    (hlen : k + 1 ≤ padded.length) (hd : ∀ d ∈ padded, d < 10) :
    parseFloatChars (bodyChars k padded) = some ((ofD padded : ℚ) / 10 ^ k) := by
  obtain ⟨hne, hval⟩ := takeDigits_bodyChars_value k padded hlen hd
  have hdropne : (padded.drop k).reverse ≠ [] := by
    intro hnil
    rw [List.reverse_eq_nil_iff] at hnil
    have h0 : (padded.drop k).length = 0 := by rw [hnil]; rfl
    rw [List.length_drop] at h0
    omega
  obtain ⟨d0, M2, hM⟩ := List.exists_cons_of_ne_nil hdropne
  have hd0 : d0 < 10 := by
    apply hd
    apply List.drop_subset k padded
    rw [← List.mem_reverse, hM]
    exact List.mem_cons_self _ _
  have hbody : bodyChars k padded = Nat.digitChar d0 ::
      (M2.map Nat.digitChar ++
        (if k = 0 then []
        else '.' :: ((padded.take k).map Nat.digitChar).reverse)) := by
    unfold bodyChars
    rw [← List.map_reverse, hM]
    simp
  have hsign : parseSign (bodyChars k padded) = (false, bodyChars k padded) := by
    obtain ⟨h1, h2⟩ := digitChar_not_sign d0 hd0
    rw [hbody]
    simp [parseSign, h1, h2]
  rw [parseFloatChars_eq, hsign]
  show (if (takeDigits (bodyChars k padded)).1 = [] then none
    else some (((digitsToNat (takeDigits (bodyChars k padded)).1 : Nat) : ℚ) +
      fracValue (takeDigits (bodyChars k padded)).2)) = _
  rw [if_neg hne, hval]

theorem parseFloatChars_neg_bodyChars (k : Nat) (padded : List Nat)
    (hlen : k + 1 ≤ padded.length) (hd : ∀ d ∈ padded, d < 10) :
    parseFloatChars ('-' :: bodyChars k padded) =
      some (-((ofD padded : ℚ) / 10 ^ k)) := by
  obtain ⟨hne, hval⟩ := takeDigits_bodyChars_value k padded hlen hd
  have hsign : parseSign ('-' :: bodyChars k padded) =
      (true, bodyChars k padded) := by
    simp [parseSign]
  rw [parseFloatChars_eq, hsign]
  show (if (takeDigits (bodyChars k padded)).1 = [] then none
    else some (-(((digitsToNat (takeDigits (bodyChars k padded)).1 : Nat) : ℚ) +
      fracValue (takeDigits (bodyChars k padded)).2))) = _
  rw [if_neg hne, hval]

/-- The JS print/parse roundtrip: `parseFloat` recovers exactly the decimal
value `toString` printed. -/
theorem parseFloat_decToString (q : ℚ) (k : Nat) (h : decExp q = some k) :
    parseFloatJS (decToString q) = some q := by
  have hden := decExp_den q k h
  have hq10 : ((q * (10 : ℚ) ^ k).num : ℚ) = q * 10 ^ k :=
    (Rat.den_eq_one_iff _).mp hden
  have hpow0 : (0 : ℚ) < 10 ^ k := by positivity
  have hstr : decToString q = (if q < 0 then "-" else "") ++
      String.mk (bodyChars k (paddedDigits k (q * (10 : ℚ) ^ k).num.natAbs)) := by
    simp only [decToString, h]
  have hofD : ((ofD (paddedDigits k (q * (10 : ℚ) ^ k).num.natAbs)) : ℚ) =
      (((q * (10 : ℚ) ^ k).num.natAbs : Nat) : ℚ) := by
    rw [ofD_paddedDigits]
  by_cases hq : q < 0
  · have hneg : (q * (10 : ℚ) ^ k).num < 0 := by
      rw [Rat.num_neg]
      exact mul_neg_of_neg_of_pos hq hpow0
    have hcast : (((q * (10 : ℚ) ^ k).num.natAbs : Nat) : ℚ) = -(q * 10 ^ k) := by
      have h1 : (((q * (10 : ℚ) ^ k).num.natAbs : Nat) : ℤ) =
          -(q * (10 : ℚ) ^ k).num := Int.ofNat_natAbs_of_nonpos (le_of_lt hneg)
      have h2 : (((q * (10 : ℚ) ^ k).num.natAbs : Nat) : ℚ) =
          ((((q * (10 : ℚ) ^ k).num.natAbs : Nat) : ℤ) : ℚ) :=
        (Int.cast_natCast _).symm
      rw [h2, h1, Int.cast_neg, hq10]
    rw [hstr, if_pos hq]
    have hJS : parseFloatJS ("-" ++
        String.mk (bodyChars k (paddedDigits k (q * (10 : ℚ) ^ k).num.natAbs))) =
        parseFloatChars
          ('-' :: bodyChars k (paddedDigits k (q * (10 : ℚ) ^ k).num.natAbs)) :=
      rfl
    rw [hJS, parseFloatChars_neg_bodyChars k _ (paddedDigits_length _ _)
      (paddedDigits_lt _ _)]
    congr 1
    rw [hofD, hcast]
    field_simp
  · have hpos : (0 : ℚ) ≤ q * 10 ^ k :=
      mul_nonneg (not_lt.mp hq) (le_of_lt hpow0)
    have hcast : (((q * (10 : ℚ) ^ k).num.natAbs : Nat) : ℚ) = q * 10 ^ k := by
      have h1 : (((q * (10 : ℚ) ^ k).num.natAbs : Nat) : ℤ) =
          (q * (10 : ℚ) ^ k).num := Int.natAbs_of_nonneg (Rat.num_nonneg.mpr hpos)
      have h2 : (((q * (10 : ℚ) ^ k).num.natAbs : Nat) : ℚ) =
          ((((q * (10 : ℚ) ^ k).num.natAbs : Nat) : ℤ) : ℚ) :=
        (Int.cast_natCast _).symm
      rw [h2, h1, hq10]
    rw [hstr, if_neg hq]
    have hJS : parseFloatJS ("" ++
        String.mk (bodyChars k (paddedDigits k (q * (10 : ℚ) ^ k).num.natAbs))) =
        parseFloatChars
          (bodyChars k (paddedDigits k (q * (10 : ℚ) ^ k).num.natAbs)) := rfl
    rw [hJS, parseFloatChars_bodyChars k _ (paddedDigits_length _ _)
      (paddedDigits_lt _ _)]
    congr 1
    rw [hofD, hcast]
    field_simp

/-! ### Settlement lemmas -/

theorem updateBetResult_users (db : DB) (i : Nat) (s p : String) :
    (updateBetResult db i s p).users = db.users := rfl

theorem getUser_updateBetResult (db : DB) (i : Nat) (s p : String) (x : Nat) :
    getUser (updateBetResult db i s p) x = getUser db x := rfl

theorem settleBetStep_bets (res : RoundResult) (db : DB) (bet : Bet) :
    (settleBetStep res db bet).bets = db.bets.map (fun b =>
      if b.id = bet.id then
        { b with status := betStatusStr res bet, payout := betPayoutStr res bet }
      else b) := by
  simp only [settleBetStep]
  split
  · split <;> rfl
  · rfl

theorem settleBetStep_rounds (res : RoundResult) (db : DB) (bet : Bet) :
    (settleBetStep res db bet).rounds = db.rounds := by
  simp only [settleBetStep]
  split
  · split <;> rfl
  · rfl

theorem mem_settleBetStep_of_ne (res : RoundResult) (db : DB) (bet b : Bet)
    (hb : b ∈ db.bets) (hne : b.id ≠ bet.id) :
    b ∈ (settleBetStep res db bet).bets := by
  rw [settleBetStep_bets]
  have h := List.mem_map_of_mem (fun x : Bet =>
    if x.id = bet.id then
      { x with status := betStatusStr res bet, payout := betPayoutStr res bet }
    else x) hb
  simpa [hne] using h

theorem settled_mem_settleBetStep (res : RoundResult) (db : DB) (bet : Bet)
    (hb : bet ∈ db.bets) :
    settledBet res bet ∈ (settleBetStep res db bet).bets := by
  rw [settleBetStep_bets]
  have h := List.mem_map_of_mem (fun x : Bet =>
    if x.id = bet.id then
      { x with status := betStatusStr res bet, payout := betPayoutStr res bet }
    else x) hb
  simpa [settledBet] using h

theorem mem_foldl_settle_of_ne (res : RoundResult) (L : List Bet) :
    ∀ (db : DB) (b : Bet), b ∈ db.bets → (∀ x ∈ L, x.id ≠ b.id) →
      b ∈ (L.foldl (settleBetStep res) db).bets := by
  induction L with
  | nil => intro db b hb _; simpa using hb
  | cons x t ih =>
    intro db b hb h
    rw [List.foldl_cons]
    refine ih _ b ?_ (fun y hy => h y (List.mem_cons_of_mem x hy))
    exact mem_settleBetStep_of_ne res db x b hb
      (Ne.symm (h x (List.mem_cons_self x t)))

theorem settled_mem_foldl_settle (res : RoundResult) (L : List Bet) :
    ∀ (db : DB) (b : Bet), b ∈ db.bets → b ∈ L → (L.map Bet.id).Nodup →
      settledBet res b ∈ (L.foldl (settleBetStep res) db).bets := by
  induction L with
  | nil => intro db b _ hmem _; simp at hmem
  | cons x t ih =>
    intro db b hb hmem hnd
    rw [List.map_cons, List.nodup_cons] at hnd
    obtain ⟨hx, hndt⟩ := hnd
    rw [List.foldl_cons]
    rcases List.mem_cons.mp hmem with rfl | hmt
    · refine mem_foldl_settle_of_ne res t _ _ ?_ ?_
      · exact settled_mem_settleBetStep res db b hb
      · intro y hy heq
        exact hx (heq ▸ List.mem_map_of_mem Bet.id hy)
    · refine ih _ b ?_ hmt hndt
      refine mem_settleBetStep_of_ne res db x b hb ?_
      intro heq
      exact hx (heq ▸ List.mem_map_of_mem Bet.id hmt)

theorem processRoundResult_rounds (db : DB) (roundId : Nat)
    (res : RoundResult) :
    (processRoundResult db roundId res).rounds = db.rounds := by
  unfold processRoundResult
  generalize getBetsByRoundId db roundId = L
  induction L generalizing db with
  | nil => rfl
  | cons x t ih => rw [List.foldl_cons, ih, settleBetStep_rounds]

theorem betStatusStr_won_iff (res : RoundResult) (b : Bet) :
    betStatusStr res b = "won" ↔ betWon res b = true := by
  unfold betStatusStr
  by_cases h : betWon res b = true <;> simp [h]

theorem betWon_iff (res : RoundResult) (b : Bet) :
    betWon res b = true ↔
      (b.betType = "color" ∧ b.betValue = res.color) ∨
      (b.betType = "number" ∧ parseIntJS b.betValue = some res.number) := by
  unfold betWon
  by_cases hc : b.betType = "color"
  · rw [if_pos hc]
    simp only [decide_eq_true_eq]
    constructor
    · intro h
      exact Or.inl ⟨hc, h⟩
    · rintro (⟨_, h⟩ | ⟨h, _⟩)
      · exact h
      · rw [hc] at h
        exact absurd h (by decide)
  · by_cases hn : b.betType = "number"
    · rw [if_neg hc, if_pos hn]
      simp only [decide_eq_true_eq]
      constructor
      · intro h
        exact Or.inr ⟨hn, h⟩
      · rintro (⟨h, _⟩ | ⟨_, h⟩)
        · exact absurd h hc
        · exact h
    · rw [if_neg hc, if_neg hn]
      constructor
      · intro h
        exact absurd h (by decide)
      · rintro (⟨h, _⟩ | ⟨h, _⟩)
        · exact absurd h hc
        · exact absurd h hn

/-! ### Claim about per-bet settlement (C1) -/

/-- C1: for every bet on a settled round (with distinct bet ids, as the
serial `id` column guarantees), the settled record the engine persists has
status `"won"` exactly when the bet is a color bet matching the round's
color or a number bet whose parsed value equals the round's number; losing
bets get payout `"0.00"` and status `"lost"`; winning bets get status
`"won"` with payout `amount × multiplier`, where the multiplier is 4.5 for
a winning violet color bet, 1.95 for other winning color bets, and 9 for
number bets; only `status`/`payout` change. -/
theorem settlement_decides_bets (db : DB) (roundId : Nat) (res : RoundResult)
    (b : Bet) (hb : b ∈ db.bets) (hrid : b.roundId = roundId)
    (hnd : (db.bets.map Bet.id).Nodup) :
    settledBet res b ∈ (processRoundResult db roundId res).bets ∧
    ((settledBet res b).status = "won" ↔
      (b.betType = "color" ∧ b.betValue = res.color) ∨
      (b.betType = "number" ∧ parseIntJS b.betValue = some res.number)) ∧
    ((settledBet res b).status = "won" ∨ (settledBet res b).status = "lost") ∧
    (¬ ((b.betType = "color" ∧ b.betValue = res.color) ∨
        (b.betType = "number" ∧ parseIntJS b.betValue = some res.number)) →
      (settledBet res b).payout = "0.00" ∧
        (settledBet res b).status = "lost") ∧
    ((settledBet res b).status = "won" →
      (settledBet res b).payout =
        jsMulToString (parseFloatJS b.amount) (betMultiplier res b)) ∧
    (b.betType = "color" →
      betMultiplier res b = if res.color = "violet" then (4.5 : ℚ) else 1.95) ∧
    (b.betType = "number" → betMultiplier res b = 9) ∧
    (settledBet res b).id = b.id ∧ (settledBet res b).amount = b.amount ∧
    (settledBet res b).userId = b.userId := by
  have hmemL : b ∈ getBetsByRoundId db roundId := by
    simp [getBetsByRoundId, List.mem_filter, hb, hrid]
  have hndL : ((getBetsByRoundId db roundId).map Bet.id).Nodup := by
    refine hnd.sublist (List.Sublist.map Bet.id ?_)
    exact List.filter_sublist db.bets
  refine ⟨settled_mem_foldl_settle res _ db b hb hmemL hndL, ?_, ?_, ?_, ?_, ?_, ?_, rfl, rfl, rfl⟩
  · rw [show (settledBet res b).status = betStatusStr res b from rfl,
      betStatusStr_won_iff, betWon_iff]
  · rw [show (settledBet res b).status = betStatusStr res b from rfl]
    unfold betStatusStr
    split
    · exact Or.inl rfl
    · exact Or.inr rfl
  · intro h
    have hw : betWon res b = false := by
      rw [← Bool.not_eq_true, betWon_iff]
      exact h
    constructor
    · rw [show (settledBet res b).payout = betPayoutStr res b from rfl]
      simp [betPayoutStr, hw]
    · rw [show (settledBet res b).status = betStatusStr res b from rfl]
      simp [betStatusStr, hw]
  · intro h
    rw [show (settledBet res b).status = betStatusStr res b from rfl,
      betStatusStr_won_iff] at h
    rw [show (settledBet res b).payout = betPayoutStr res b from rfl]
    simp [betPayoutStr, h]
  · intro h
    simp [betMultiplier, h]
  · intro h
    have : b.betType ≠ "color" := by
      rw [h]; decide
    simp [betMultiplier, this]

/-- C1 witness: the settlement rules instantiated at the concrete database
`wDB` (one pending 10.00 color bet on red) settled with outcome red 2. -/
theorem settlement_decides_bets_witness :
    (wBet ∈ wDB.bets ∧ wBet.roundId = 1 ∧ (wDB.bets.map Bet.id).Nodup) ∧
    (settledBet wRes wBet ∈ (processRoundResult wDB 1 wRes).bets ∧
    ((settledBet wRes wBet).status = "won" ↔
      (wBet.betType = "color" ∧ wBet.betValue = wRes.color) ∨
      (wBet.betType = "number" ∧ parseIntJS wBet.betValue = some wRes.number)) ∧
    ((settledBet wRes wBet).status = "won" ∨
      (settledBet wRes wBet).status = "lost") ∧
    (¬ ((wBet.betType = "color" ∧ wBet.betValue = wRes.color) ∨
        (wBet.betType = "number" ∧ parseIntJS wBet.betValue = some wRes.number)) →
      (settledBet wRes wBet).payout = "0.00" ∧
        (settledBet wRes wBet).status = "lost") ∧
    ((settledBet wRes wBet).status = "won" →
      (settledBet wRes wBet).payout =
        jsMulToString (parseFloatJS wBet.amount) (betMultiplier wRes wBet)) ∧
    (wBet.betType = "color" →
      betMultiplier wRes wBet =
        if wRes.color = "violet" then (4.5 : ℚ) else 1.95) ∧
    (wBet.betType = "number" → betMultiplier wRes wBet = 9) ∧
    (settledBet wRes wBet).id = wBet.id ∧
    (settledBet wRes wBet).amount = wBet.amount ∧
    (settledBet wRes wBet).userId = wBet.userId) :=
  ⟨⟨by decide, rfl, by decide⟩,
    settlement_decides_bets wDB 1 wRes wBet (by decide) rfl (by decide)⟩

/-! ### Claim about settlement when the winner's user is missing (C9) -/

/-- C9: when the only bet on the settled round is a winner whose owning user
cannot be found, the bet row is still updated to status `"won"` with its
full payout, while the users table (hence every balance) is left untouched —
the bet update and the balance credit are not atomic. -/
theorem settlement_orphan_winner (db : DB) (roundId : Nat) (res : RoundResult)
    (b : Bet) (hL : getBetsByRoundId db roundId = [b])
    (hwon : betWon res b = true) (hu : getUser db b.userId = none) :
    (processRoundResult db roundId res).users = db.users ∧
    (processRoundResult db roundId res).rounds = db.rounds ∧
    (processRoundResult db roundId res).bets = db.bets.map (wonUpd res b) ∧
    (wonUpd res b b).status = "won" ∧
    (wonUpd res b b).payout =
      jsMulToString (parseFloatJS b.amount) (betMultiplier res b) ∧
    (wonUpd res b b).id = b.id ∧ (wonUpd res b b).amount = b.amount := by
  have h1 : processRoundResult db roundId res = settleBetStep res db b := by
    unfold processRoundResult
    rw [hL]
    rfl
  have hu1 : getUser (updateBetResult db b.id (betStatusStr res b)
      (betPayoutStr res b)) b.userId = none := hu
  have h2 : settleBetStep res db b =
      updateBetResult db b.id (betStatusStr res b) (betPayoutStr res b) := by
    simp only [settleBetStep, hwon, if_true, hu1]
  have hst : betStatusStr res b = "won" := by
    simp [betStatusStr, hwon]
  have hpy : betPayoutStr res b =
      jsMulToString (parseFloatJS b.amount) (betMultiplier res b) := by
    simp [betPayoutStr, hwon]
  refine ⟨?_, ?_, ?_, ?_, ?_, ?_, ?_⟩
  · rw [h1, h2]
    rfl
  · rw [h1, h2]
    rfl
  · rw [h1, h2]
    unfold updateBetResult wonUpd
    rw [hst]
  · simp [wonUpd]
  · simp [wonUpd, hpy]
  · simp [wonUpd]
  · simp [wonUpd]

/-- C9 witness: the orphan-winner behavior at the concrete database
`orphanDB`, whose only bet is a winning red bet owned by the nonexistent
user 77. -/
theorem settlement_orphan_winner_witness :
    (getBetsByRoundId orphanDB 1 = [orphanBet] ∧
      betWon wRes orphanBet = true ∧ getUser orphanDB orphanBet.userId = none) ∧
    ((processRoundResult orphanDB 1 wRes).users = orphanDB.users ∧
    (processRoundResult orphanDB 1 wRes).rounds = orphanDB.rounds ∧
    (processRoundResult orphanDB 1 wRes).bets =
      orphanDB.bets.map (wonUpd wRes orphanBet) ∧
    (wonUpd wRes orphanBet orphanBet).status = "won" ∧
    (wonUpd wRes orphanBet orphanBet).payout =
      jsMulToString (parseFloatJS orphanBet.amount)
        (betMultiplier wRes orphanBet) ∧
    (wonUpd wRes orphanBet orphanBet).id = orphanBet.id ∧
    (wonUpd wRes orphanBet orphanBet).amount = orphanBet.amount) :=
  ⟨⟨by decide, by decide, by decide⟩,
    settlement_orphan_winner orphanDB 1 wRes orphanBet (by decide) (by decide)
      (by decide)⟩

/-! ### Claims about monetary string formatting (C4) -/

/-- A decimal value written through an integer scaling witness parses back
from its printed form: the roundtrip `parseFloat (toString q) = q`. -/
theorem roundtrip_of_scale (q : ℚ) (z : ℤ) (j : Nat) (hj : j < 40)
    (h : q * (10 : ℚ) ^ j = (z : ℚ)) :
    parseFloatJS (decToString q) = some q := by
  have hden : (q * (10 : ℚ) ^ j).den = 1 := by
    rw [h]
    exact Rat.den_intCast z
  obtain ⟨k, hk⟩ := decExp_isSome q j hj hden
  exact parseFloat_decToString q k hk

/-- C4 counterexample: settling a winning 10.00 violet bet persists the
payout string `"45"` — zero fractional digits, not the claimed exactly-two
(`"45.00"`); the credited balance is written `"95"` and a 50.00 − 10.00
deduction is written `"40"`, likewise without 2 fractional digits. -/
theorem money_format_counterexample :
    (processRoundResult violetDB 1 violetRes).bets.map Bet.payout = ["45"] ∧
    fracLen "45" = none ∧ ("45" : String) ≠ "45.00" ∧
    (processRoundResult violetDB 1 violetRes).users.map User.balance = ["95"] ∧
    fracLen "95" = none ∧
    jsSubToString (parseFloatJS "50.00") (parseFloatJS "10.00") = "40" ∧
    fracLen "40" = none := by
  refine ⟨by with_unfolding_all rfl, by decide, by decide,
    by with_unfolding_all rfl, by decide, by with_unfolding_all rfl, by decide⟩

/-- C4 amended: monetary strings are produced by JS `toString` of the exact
computed value — the payout persisted for a winning bet is
`toString(amount × multiplier)` and balances are `toString` of the exact
sum/difference — with no fixed 2-fractional-digit formatting (trailing
zeros are dropped, integers are printed without a point). -/
theorem money_format_amended (res : RoundResult) (b : Bet) (a : ℚ)
    (hwon : betWon res b = true) (ha : parseFloatJS b.amount = some a) :
    betPayoutStr res b = decToString (a * betMultiplier res b) ∧
    (∀ bal amt : ℚ,
      jsSubToString (some bal) (some amt) = decToString (bal - amt)) ∧
    (∀ bal amt : ℚ,
      jsAddToString (some bal) (some amt) = decToString (bal + amt)) := by
  refine ⟨?_, fun _ _ => rfl, fun _ _ => rfl⟩
  simp [betPayoutStr, hwon, jsMulToString, ha]

/-- C4 witness: the amended formatting facts at the concrete winning violet
bet of `"10.00"`. -/
theorem money_format_amended_witness :
    (betWon violetRes violetBet = true ∧
      parseFloatJS violetBet.amount = some 10) ∧
    (betPayoutStr violetRes violetBet =
        decToString (10 * betMultiplier violetRes violetBet) ∧
    (∀ bal amt : ℚ,
      jsSubToString (some bal) (some amt) = decToString (bal - amt)) ∧
    (∀ bal amt : ℚ,
      jsAddToString (some bal) (some amt) = decToString (bal + amt))) :=
  ⟨⟨by decide, by with_unfolding_all rfl⟩,
    money_format_amended violetRes violetBet 10 (by decide)
      (by with_unfolding_all rfl)⟩

/-! ### Claims about bet placement (C2) -/

theorem getUser_updateUserBalance (db : DB) (uid : Nat) (s : String) (x : Nat) :
    getUser (updateUserBalance db uid s) x =
      (getUser db x).map (balanceUpd uid s) := by
  unfold getUser updateUserBalance
  rw [show (db.users.map fun u =>
      if u.id = uid then { u with balance := s } else u) =
    db.users.map (balanceUpd uid s) from rfl]
  rw [List.find?_map]
  have hid : ∀ u : User, (balanceUpd uid s u).id = u.id := by
    intro u
    unfold balanceUpd
    split <;> rfl
  have hp : ((fun u : User => decide (u.id = x)) ∘ balanceUpd uid s) =
      (fun u : User => decide (u.id = x)) := by
    funext u
    simp [Function.comp, hid u]
  rw [hp]

/-- C2 amended: a bet is accepted exactly when a round exists, the body
passes validation, the user exists and the parsed balance is not below the
parsed amount; acceptance creates one pending bet on the current round and
rewrites the user's balance to exactly `balance − amount`; every error
before the bet insert (no round, invalid body, unknown user, insufficient
balance, failing insert) leaves the database untouched; but when the
balance-deduction write fails after the insert, the 500 reply leaves the
created pending bet behind (balance still untouched). -/
theorem bet_placement_spec (db : DB) (body : BetReqBody) :
    (getCurrentRound db = none →
      placeBet db body noFail = (BetResp.noActiveRound, db)) ∧
    (getCurrentRound db ≠ none → insertBetSchemaParse body = none →
      placeBet db body noFail = (BetResp.serverError, db)) ∧
    (∀ v, getCurrentRound db ≠ none → insertBetSchemaParse body = some v →
      getUser db v.userId = none →
      placeBet db body noFail = (BetResp.userNotFound, db)) ∧
    (∀ cr v u, getCurrentRound db = some cr →
      insertBetSchemaParse body = some v → getUser db v.userId = some u →
      jsLt (parseFloatJS u.balance) (parseFloatJS v.amount) = true →
      placeBet db body noFail = (BetResp.insufficientBalance, db)) ∧
    (∀ cr v u bal a, getCurrentRound db = some cr →
      insertBetSchemaParse body = some v → getUser db v.userId = some u →
      parseFloatJS u.balance = some bal → parseFloatJS v.amount = some a →
      ¬ bal < a →
      (∃ z : ℤ, bal * 100 = (z : ℚ)) → (∃ z : ℤ, a * 100 = (z : ℚ)) →
      (placeBet db body noFail).1 = BetResp.placed db.nextBetId ∧
      (placeBet db body noFail).2.bets =
        betRecord v cr db.nextBetId :: db.bets ∧
      (betRecord v cr db.nextBetId).status = "pending" ∧
      (betRecord v cr db.nextBetId).roundId = cr.id ∧
      (betRecord v cr db.nextBetId).amount = v.amount ∧
      (placeBet db body noFail).2.rounds = db.rounds ∧
      (placeBet db body noFail).2.users =
        db.users.map (balanceUpd v.userId (decToString (bal - a))) ∧
      parseFloatJS (decToString (bal - a)) = some (bal - a)) ∧
    (∀ cr v u, getCurrentRound db = some cr →
      insertBetSchemaParse body = some v → getUser db v.userId = some u →
      jsLt (parseFloatJS u.balance) (parseFloatJS v.amount) = false →
      placeBet db body { createBetFails := true, updateBalanceFails := false } =
        (BetResp.serverError, db)) ∧
    (∀ cr v u, getCurrentRound db = some cr →
      insertBetSchemaParse body = some v → getUser db v.userId = some u →
      jsLt (parseFloatJS u.balance) (parseFloatJS v.amount) = false →
      (placeBet db body
        { createBetFails := false, updateBalanceFails := true }).1 =
          BetResp.serverError ∧
      (placeBet db body
        { createBetFails := false, updateBalanceFails := true }).2.bets =
          betRecord v cr db.nextBetId :: db.bets ∧
      (placeBet db body
        { createBetFails := false, updateBalanceFails := true }).2.users =
          db.users) := by
  refine ⟨?_, ?_, ?_, ?_, ?_, ?_, ?_⟩
  · intro hcr
    simp [placeBet, hcr]
  · intro hcr hpar
    obtain ⟨cr, hcr⟩ := Option.ne_none_iff_exists'.mp hcr
    simp [placeBet, hcr, hpar]
  · intro v hcr hpar hu
    obtain ⟨cr, hcr⟩ := Option.ne_none_iff_exists'.mp hcr
    simp [placeBet, hcr, hpar, hu]
  · intro cr v u hcr hpar hu hlt
    simp [placeBet, hcr, hpar, hu, hlt]
  · intro cr v u bal a hcr hpar hu hbal ha hnlt hzb hza
    have hlt : jsLt (parseFloatJS u.balance) (parseFloatJS v.amount) = false := by
      rw [hbal, ha]
      simpa [jsLt] using hnlt
    have hplace : placeBet db body noFail =
        (BetResp.placed db.nextBetId,
          updateUserBalance (withNewBet db (betRecord v cr db.nextBetId))
            v.userId (decToString (bal - a))) := by
      simp only [placeBet, hcr, hpar, hu, hlt, noFail, Bool.false_eq_true,
        if_false, createBet]
      rw [hbal, ha]
      rfl
    obtain ⟨zb, hzbe⟩ := hzb
    obtain ⟨za, hzae⟩ := hza
    have hrt : parseFloatJS (decToString (bal - a)) = some (bal - a) := by
      refine roundtrip_of_scale (bal - a) (zb - za) 2 (by norm_num) ?_
      push_cast
      linear_combination hzbe - hzae
    rw [hplace]
    exact ⟨rfl, rfl, rfl, rfl, rfl, rfl, rfl, hrt⟩
  · intro cr v u hcr hpar hu hlt
    simp [placeBet, hcr, hpar, hu, hlt]
  · intro cr v u hcr hpar hu hlt
    have hplace : placeBet db body
        { createBetFails := false, updateBalanceFails := true } =
        (BetResp.serverError,
          withNewBet db (betRecord v cr db.nextBetId)) := by
      simp only [placeBet, hcr, hpar, hu, hlt, Bool.false_eq_true, if_false,
        createBet]
      rfl
    rw [hplace]
    exact ⟨rfl, rfl, rfl⟩

/-- C2 counterexample: on a valid 10.00 bet, if the balance-deduction write
fails after the bet insert succeeded, the handler replies with the
synchronous 500 error yet a bet record has been created — contradicting the
claim that on any placement error no bet record is created. -/
theorem bet_placement_partial_failure_counterexample :
    (placeBet sampleDB sampleBody
      { createBetFails := false, updateBalanceFails := true }).1 =
        BetResp.serverError ∧
    sampleDB.bets = [] ∧
    (placeBet sampleDB sampleBody
      { createBetFails := false, updateBalanceFails := true }).2.bets =
      [betRecord { userId := 1, betType := "color", betValue := "red", amount := "10.00" } sampleRound 1] := by
  refine ⟨by with_unfolding_all rfl, rfl, by with_unfolding_all rfl⟩

/-- C2 witness: the placement specification applied at the concrete database
`sampleDB` and the valid 10.00 red bet request `sampleBody`. -/
theorem bet_placement_spec_witness :
    (getCurrentRound sampleDB = some sampleRound ∧
      insertBetSchemaParse sampleBody =
        some { userId := 1, betType := "color", betValue := "red", amount := "10.00" } ∧
      getUser sampleDB 1 = some sampleUser ∧
      parseFloatJS sampleUser.balance = some 50 ∧
      parseFloatJS "10.00" = some 10 ∧ ¬ (50 : ℚ) < 10) ∧
    ((placeBet sampleDB sampleBody noFail).1 = BetResp.placed 1 ∧
      (placeBet sampleDB sampleBody noFail).2.bets =
        betRecord { userId := 1, betType := "color", betValue := "red", amount := "10.00" } sampleRound 1 :: sampleDB.bets ∧
      (placeBet sampleDB sampleBody noFail).2.users =
        sampleDB.users.map (balanceUpd 1 (decToString ((50 : ℚ) - 10))) ∧
      parseFloatJS (decToString ((50 : ℚ) - 10)) = some ((50 : ℚ) - 10)) := by
  have h := (bet_placement_spec sampleDB sampleBody).2.2.2.2.1 sampleRound
    { userId := 1, betType := "color", betValue := "red", amount := "10.00" }
    sampleUser 50 10 rfl rfl rfl (by with_unfolding_all rfl)
    (by with_unfolding_all rfl) (by norm_num)
    ⟨5000, by norm_num⟩ ⟨1000, by norm_num⟩
  exact ⟨⟨rfl, rfl, rfl, by with_unfolding_all rfl, by with_unfolding_all rfl,
    by norm_num⟩, ⟨h.1, h.2.1, h.2.2.2.2.2.2.1, h.2.2.2.2.2.2.2⟩⟩

/-! ### Claim about the tick cycle and the one-round settlement lag (C3) -/

theorem betMultiplier_scale2 (res : RoundResult) (b : Bet) :
    ∃ z : ℤ, betMultiplier res b * 100 = (z : ℚ) := by
  unfold betMultiplier
  split
  · split
    · exact ⟨450, by norm_num⟩
    · exact ⟨195, by norm_num⟩
  · exact ⟨900, by norm_num⟩

theorem balanceUpd_id (uid : Nat) (s : String) (u : User) :
    (balanceUpd uid s u).id = u.id := by
  unfold balanceUpd
  split <;> rfl

theorem find?_map_balanceUpd (users : List User) (uid2 : Nat) (s : String)
    (i : Nat) :
    (users.map (balanceUpd uid2 s)).find? (fun u => decide (u.id = i)) =
      (users.find? (fun u => decide (u.id = i))).map (balanceUpd uid2 s) := by
  rw [List.find?_map]
  have hp : ((fun u : User => decide (u.id = i)) ∘ balanceUpd uid2 s) =
      (fun u : User => decide (u.id = i)) := by
    funext u
    simp [Function.comp, balanceUpd_id]
  rw [hp]

theorem map_id_map_balanceUpd (users : List User) (uid2 : Nat) (s : String) :
    (users.map (balanceUpd uid2 s)).map User.id = users.map User.id := by
  rw [List.map_map]
  congr 1
  funext u
  exact balanceUpd_id uid2 s u

theorem getUser_user_id (db : DB) (uid : Nat) (u : User)
    (h : getUser db uid = some u) : u.id = uid := by
  have h2 := List.find?_some h
  simpa using h2

theorem winCredit_nil (res : RoundResult) (uid : Nat) :
    winCredit res uid [] = 0 := rfl

theorem winCredit_cons (res : RoundResult) (uid : Nat) (x : Bet)
    (t : List Bet) :
    winCredit res uid (x :: t) =
      (if x.userId = uid ∧ betWon res x = true then betPayoutVal res x else 0) +
        winCredit res uid t := by
  simp [winCredit]

theorem settleBetStep_users_lost (res : RoundResult) (db : DB) (x : Bet)
    (hw : betWon res x = false) :
    (settleBetStep res db x).users = db.users := by
  simp only [settleBetStep, hw, Bool.false_eq_true, if_false]
  rfl

theorem settleBetStep_users_nouser (res : RoundResult) (db : DB) (x : Bet)
    (hw : betWon res x = true) (hx : getUser db x.userId = none) :
    (settleBetStep res db x).users = db.users := by
  have hx1 : getUser (updateBetResult db x.id (betStatusStr res x)
      (betPayoutStr res x)) x.userId = none := hx
  simp only [settleBetStep, hw, if_true, hx1]
  rfl

theorem settleBetStep_users_credit (res : RoundResult) (db : DB) (x : Bet)
    (w : User) (hw : betWon res x = true)
    (hx : getUser db x.userId = some w) :
    (settleBetStep res db x).users =
      db.users.map (balanceUpd x.userId
        (jsAddToString (parseFloatJS w.balance)
          (parseFloatJS (betPayoutStr res x)))) := by
  have hx1 : getUser (updateBetResult db x.id (betStatusStr res x)
      (betPayoutStr res x)) x.userId = some w := hx
  simp only [settleBetStep, hw, if_true, hx1]
  rfl

/-- Core balance accounting of the settlement loop: folding
`settleBetStep` over a bet list whose amounts are scale-2 decimals rewrites
each user's balance to exactly its old value plus the total payout of that
user's winning bets in the list, crediting winners one by one through the
print/parse roundtrip. -/
theorem foldl_settle_balance (res : RoundResult) (L : List Bet) :
    ∀ (db : DB) (uid : Nat) (u : User) (bal : ℚ),
      (db.users.map User.id).Nodup →
      getUser db uid = some u →
      parseFloatJS u.balance = some bal →
      (∃ z : ℤ, bal * 10 ^ 4 = (z : ℚ)) →
      (∀ b ∈ L, ∃ a : ℚ, parseFloatJS b.amount = some a ∧
        ∃ z : ℤ, a * 100 = (z : ℚ)) →
      ∃ u2 : User, getUser (L.foldl (settleBetStep res) db) uid = some u2 ∧
        u2.id = u.id ∧ u2.username = u.username ∧ u2.password = u.password ∧
        parseFloatJS u2.balance = some (bal + winCredit res uid L) := by
  induction L with
  | nil =>
    intro db uid u bal _ hu hbal _ _
    refine ⟨u, hu, rfl, rfl, rfl, ?_⟩
    rw [winCredit_nil, add_zero]
    exact hbal
  | cons x t ih =>
    intro db uid u bal hnd hu hbal hscale hL
    have hu_id : u.id = uid := getUser_user_id db uid u hu
    have hLt : ∀ b ∈ t, ∃ a : ℚ, parseFloatJS b.amount = some a ∧
        ∃ z : ℤ, a * 100 = (z : ℚ) :=
      fun b hb => hL b (List.mem_cons_of_mem x hb)
    rw [List.foldl_cons]
    by_cases hw : betWon res x = true
    · rcases hx : getUser db x.userId with _ | w
      · -- winning bet with a missing user: no credit at all
        have hstep := settleBetStep_users_nouser res db x hw hx
        have hxu : ¬ (x.userId = uid ∧ betWon res x = true) := by
          rintro ⟨heq, _⟩
          rw [heq, hu] at hx
          exact Option.noConfusion hx
        have hgu : getUser (settleBetStep res db x) uid = getUser db uid := by
          unfold getUser
          rw [hstep]
        have hnd2 : ((settleBetStep res db x).users.map User.id).Nodup := by
          rw [hstep]
          exact hnd
        obtain ⟨u2, hg2, hid2, hun2, hpw2, hb2⟩ :=
          ih (settleBetStep res db x) uid u bal hnd2 (hgu ▸ hu) hbal hscale hLt
        refine ⟨u2, hg2, hid2, hun2, hpw2, ?_⟩
        rw [winCredit_cons, if_neg hxu, zero_add]
        exact hb2
      · -- winning bet with an existing user: credit that user
        have hstep := settleBetStep_users_credit res db x w hw hx
        obtain ⟨a, ha, za, hza⟩ := hL x (List.mem_cons_self x t)
        obtain ⟨zm, hzm⟩ := betMultiplier_scale2 res x
        have hpay : betPayoutStr res x = decToString (a * betMultiplier res x) := by
          simp [betPayoutStr, hw, jsMulToString, ha]
        have hrtp : parseFloatJS (decToString (a * betMultiplier res x)) =
            some (a * betMultiplier res x) := by
          refine roundtrip_of_scale _ (za * zm) 4 (by norm_num) ?_
          push_cast
          linear_combination (betMultiplier res x * 100) * hza + (za : ℚ) * hzm
        by_cases hxu : x.userId = uid
        · -- the credited user is the tracked one
          have hwu : w = u := by
            rw [hxu, hu] at hx
            exact (Option.some.inj hx).symm
          subst hwu
          have hnewb : jsAddToString (parseFloatJS w.balance)
              (parseFloatJS (betPayoutStr res x)) =
              decToString (bal + a * betMultiplier res x) := by
            rw [hpay, hrtp, hbal]
            rfl
          rw [hnewb] at hstep
          have hgu : getUser (settleBetStep res db x) uid =
              some (balanceUpd x.userId
                (decToString (bal + a * betMultiplier res x)) w) := by
            unfold getUser
            rw [hstep, find?_map_balanceUpd]
            rw [show db.users.find? (fun v => decide (v.id = uid)) =
              getUser db uid from rfl, hu]
            rfl
          have hupd : balanceUpd x.userId
              (decToString (bal + a * betMultiplier res x)) w =
              { w with balance := decToString (bal + a * betMultiplier res x) } := by
            unfold balanceUpd
            rw [if_pos (by rw [hu_id, hxu])]
          rw [hupd] at hgu
          obtain ⟨zb4, hzb4⟩ := hscale
          have hbal2 : parseFloatJS ({ w with
              balance := decToString (bal + a * betMultiplier res x) } :
                User).balance = some (bal + a * betMultiplier res x) := by
            refine roundtrip_of_scale _ (zb4 + za * zm) 4 (by norm_num) ?_
            push_cast
            linear_combination hzb4 +
              (betMultiplier res x * 100) * hza + (za : ℚ) * hzm
          have hscale2 : ∃ z : ℤ,
              (bal + a * betMultiplier res x) * 10 ^ 4 = (z : ℚ) := by
            refine ⟨zb4 + za * zm, ?_⟩
            push_cast
            linear_combination hzb4 +
              (betMultiplier res x * 100) * hza + (za : ℚ) * hzm
          have hnd2 : ((settleBetStep res db x).users.map User.id).Nodup := by
            rw [hstep, map_id_map_balanceUpd]
            exact hnd
          obtain ⟨u2, hg2, hid2, hun2, hpw2, hb2⟩ :=
            ih (settleBetStep res db x) uid
              { w with balance := decToString (bal + a * betMultiplier res x) }
              (bal + a * betMultiplier res x) hnd2 hgu hbal2 hscale2 hLt
          refine ⟨u2, hg2, hid2, hun2, hpw2, ?_⟩
          rw [hb2, winCredit_cons, if_pos ⟨hxu, hw⟩]
          have hpv : betPayoutVal res x = a * betMultiplier res x := by
            simp [betPayoutVal, ha]
          rw [hpv]
          ring_nf
        · -- another user is credited; the tracked one is untouched
          have hgu : getUser (settleBetStep res db x) uid = some u := by
            unfold getUser
            rw [hstep, find?_map_balanceUpd]
            rw [show db.users.find? (fun v => decide (v.id = uid)) =
              getUser db uid from rfl, hu]
            have : balanceUpd x.userId (jsAddToString (parseFloatJS w.balance)
                (parseFloatJS (betPayoutStr res x))) u = u := by
              unfold balanceUpd
              rw [if_neg (by rw [hu_id]; exact fun h => hxu h.symm)]
            rw [Option.map_some', this]
          have hnd2 : ((settleBetStep res db x).users.map User.id).Nodup := by
            rw [hstep, map_id_map_balanceUpd]
            exact hnd
          obtain ⟨u2, hg2, hid2, hun2, hpw2, hb2⟩ :=
            ih (settleBetStep res db x) uid u bal hnd2 hgu hbal hscale hLt
          refine ⟨u2, hg2, hid2, hun2, hpw2, ?_⟩
          rw [winCredit_cons, if_neg (fun h => hxu h.1), zero_add]
          exact hb2
    · -- losing bet: no credit
      have hw2 : betWon res x = false := by
        rw [← Bool.not_eq_true]
        exact hw
      have hstep := settleBetStep_users_lost res db x hw2
      have hgu : getUser (settleBetStep res db x) uid = getUser db uid := by
        unfold getUser
        rw [hstep]
      have hnd2 : ((settleBetStep res db x).users.map User.id).Nodup := by
        rw [hstep]
        exact hnd
      obtain ⟨u2, hg2, hid2, hun2, hpw2, hb2⟩ :=
        ih (settleBetStep res db x) uid u bal hnd2 (hgu ▸ hu) hbal hscale hLt
      refine ⟨u2, hg2, hid2, hun2, hpw2, ?_⟩
      rw [winCredit_cons, if_neg (fun h => hw h.2), zero_add]
      exact hb2

theorem createNewRound_nil (e : Engine) (db : DB) (r1 r2 : ℚ)
    (h : db.rounds = []) :
    createNewRound e db r1 r2 =
      ((generatePeriodNumber e).1,
        (createGameRound db (generatePeriodNumber e).2
          (generateResult r1 r2).color (generateResult r1 r2).number).1,
        db.nextRoundId) := by
  simp [createNewRound, getRecentRounds, createGameRound, h]

theorem createNewRound_cons (e : Engine) (db : DB) (r1 r2 : ℚ)
    (prev : GameRound) (rest : List GameRound) (h : db.rounds = prev :: rest) :
    createNewRound e db r1 r2 =
      ((generatePeriodNumber e).1,
        processRoundResult
          (createGameRound db (generatePeriodNumber e).2
            (generateResult r1 r2).color (generateResult r1 r2).number).1
          prev.id { color := prev.result, number := prev.number },
        db.nextRoundId) := by
  simp [createNewRound, getRecentRounds, createGameRound, h]

/-- C3: on every tick the engine first inserts the new round, whose outcome
is already fixed at creation; when fewer than two rounds exist no
settlement happens; otherwise exactly the bets referencing the
second-most-recent round — the round that was current until this tick — are
settled (all other bets survive untouched), so every round is settled one
tick after its creation; and for a settled single winning bet whose owner
exists, that owner's balance is rewritten to exactly balance + payout. -/
theorem tick_settles_previous_round (e : Engine) (db : DB) (r1 r2 : ℚ)
    (hnd : (db.bets.map Bet.id).Nodup) :
    ((createNewRound e db r1 r2).2.1.rounds =
      newRoundRec e db r1 r2 :: db.rounds) ∧
    (newRoundRec e db r1 r2).result = (generateResult r1 r2).color ∧
    (newRoundRec e db r1 r2).number = (generateResult r1 r2).number ∧
    ((createNewRound e db r1 r2).2.2 = (newRoundRec e db r1 r2).id) ∧
    (db.rounds = [] → (createNewRound e db r1 r2).2.1.bets = db.bets ∧
      (createNewRound e db r1 r2).2.1.users = db.users) ∧
    (∀ prev rest, db.rounds = prev :: rest →
      (∀ b ∈ db.bets, b.roundId ≠ prev.id →
        b ∈ (createNewRound e db r1 r2).2.1.bets) ∧
      (∀ b ∈ db.bets, b.roundId = prev.id →
        settledBet { color := prev.result, number := prev.number } b ∈
          (createNewRound e db r1 r2).2.1.bets)) ∧
    (∀ prev rest uid u bal, db.rounds = prev :: rest →
      (db.users.map User.id).Nodup →
      getUser db uid = some u →
      parseFloatJS u.balance = some bal →
      (∃ z : ℤ, bal * 100 = (z : ℚ)) →
      (∀ b ∈ getBetsByRoundId db prev.id, ∃ a : ℚ,
        parseFloatJS b.amount = some a ∧ ∃ z : ℤ, a * 100 = (z : ℚ)) →
      ∃ u2 : User, getUser (createNewRound e db r1 r2).2.1 uid = some u2 ∧
        u2.id = u.id ∧ u2.username = u.username ∧ u2.password = u.password ∧
        parseFloatJS u2.balance =
          some (bal + winCredit { color := prev.result, number := prev.number }
            uid (getBetsByRoundId db prev.id))) := by
  refine ⟨?_, rfl, rfl, ?_, ?_, ?_, ?_⟩
  · rcases hr : db.rounds with _ | ⟨prev, rest⟩
    · rw [createNewRound_nil e db r1 r2 hr]
      show newRoundRec e db r1 r2 :: db.rounds = [newRoundRec e db r1 r2]
      rw [hr]
    · rw [createNewRound_cons e db r1 r2 prev rest hr]
      show (processRoundResult _ _ _).rounds = _
      rw [processRoundResult_rounds]
      show newRoundRec e db r1 r2 :: db.rounds =
        newRoundRec e db r1 r2 :: prev :: rest
      rw [hr]
  · rcases hr : db.rounds with _ | ⟨prev, rest⟩
    · rw [createNewRound_nil e db r1 r2 hr]
      rfl
    · rw [createNewRound_cons e db r1 r2 prev rest hr]
      rfl
  · intro hr
    rw [createNewRound_nil e db r1 r2 hr]
    exact ⟨rfl, rfl⟩
  · intro prev rest hr
    rw [createNewRound_cons e db r1 r2 prev rest hr]
    have hbets : (createGameRound db (generatePeriodNumber e).2
        (generateResult r1 r2).color (generateResult r1 r2).number).1.bets =
        db.bets := rfl
    constructor
    · intro b hb hne
      refine mem_foldl_settle_of_ne _ _ _ b ?_ ?_
      · rw [hbets]; exact hb
      · intro x hx hxid
        have hx2 := List.mem_filter.mp hx
        have hxmem : x ∈ db.bets := by
          rw [hbets] at hx2
          exact hx2.1
        have hxrid : x.roundId = prev.id := by
          have := hx2.2
          simpa using this
        have hxb : x = b :=
          List.inj_on_of_nodup_map hnd hxmem hb hxid
        rw [hxb] at hxrid
        exact hne hxrid
    · intro b hb hrid
      refine settled_mem_foldl_settle _ _ _ b ?_ ?_ ?_
      · rw [hbets]; exact hb
      · rw [show getBetsByRoundId (createGameRound db (generatePeriodNumber e).2
          (generateResult r1 r2).color (generateResult r1 r2).number).1 prev.id =
            getBetsByRoundId db prev.id from rfl]
        simp [getBetsByRoundId, List.mem_filter, hb, hrid]
      · rw [show getBetsByRoundId (createGameRound db (generatePeriodNumber e).2
          (generateResult r1 r2).color (generateResult r1 r2).number).1 prev.id =
            getBetsByRoundId db prev.id from rfl]
        refine hnd.sublist (List.Sublist.map Bet.id ?_)
        exact List.filter_sublist db.bets
  · intro prev rest uid u bal hr hndU hu hbal hscale hAll
    rw [createNewRound_cons e db r1 r2 prev rest hr]
    have hscale4 : ∃ z : ℤ, bal * 10 ^ 4 = (z : ℚ) := by
      obtain ⟨z, hz⟩ := hscale
      refine ⟨z * 100, ?_⟩
      push_cast
      linear_combination 100 * hz
    have h := foldl_settle_balance { color := prev.result, number := prev.number }
      (getBetsByRoundId db prev.id)
      (createGameRound db (generatePeriodNumber e).2
        (generateResult r1 r2).color (generateResult r1 r2).number).1
      uid u bal hndU hu hbal hscale4 hAll
    show ∃ u2 : User, getUser
      (processRoundResult (createGameRound db (generatePeriodNumber e).2
        (generateResult r1 r2).color (generateResult r1 r2).number).1 prev.id
        { color := prev.result, number := prev.number }) uid = some u2 ∧ _
    unfold processRoundResult
    rw [show getBetsByRoundId (createGameRound db (generatePeriodNumber e).2
      (generateResult r1 r2).color (generateResult r1 r2).number).1 prev.id =
        getBetsByRoundId db prev.id from rfl]
    exact h

/-- C3 witness: the tick specification applied at the initial engine, the
concrete database `wDB` (one previous round, one pending bet) and the
concrete draws `r1 = r2 = 0`. -/
theorem tick_settles_previous_round_witness :
    (wDB.bets.map Bet.id).Nodup ∧
    (((createNewRound initialEngine wDB (0 : ℚ) 0).2.1.rounds =
      newRoundRec initialEngine wDB (0 : ℚ) 0 :: wDB.rounds) ∧
    (newRoundRec initialEngine wDB (0 : ℚ) 0).result =
      (generateResult (0 : ℚ) 0).color ∧
    (newRoundRec initialEngine wDB (0 : ℚ) 0).number =
      (generateResult (0 : ℚ) 0).number ∧
    ((createNewRound initialEngine wDB (0 : ℚ) 0).2.2 =
      (newRoundRec initialEngine wDB (0 : ℚ) 0).id) ∧
    (wDB.rounds = [] →
      (createNewRound initialEngine wDB (0 : ℚ) 0).2.1.bets = wDB.bets ∧
      (createNewRound initialEngine wDB (0 : ℚ) 0).2.1.users = wDB.users) ∧
    (∀ prev rest, wDB.rounds = prev :: rest →
      (∀ b ∈ wDB.bets, b.roundId ≠ prev.id →
        b ∈ (createNewRound initialEngine wDB (0 : ℚ) 0).2.1.bets) ∧
      (∀ b ∈ wDB.bets, b.roundId = prev.id →
        settledBet { color := prev.result, number := prev.number } b ∈
          (createNewRound initialEngine wDB (0 : ℚ) 0).2.1.bets)) ∧
    (∀ prev rest uid u bal, wDB.rounds = prev :: rest →
      (wDB.users.map User.id).Nodup →
      getUser wDB uid = some u →
      parseFloatJS u.balance = some bal →
      (∃ z : ℤ, bal * 100 = (z : ℚ)) →
      (∀ b ∈ getBetsByRoundId wDB prev.id, ∃ a : ℚ,
        parseFloatJS b.amount = some a ∧ ∃ z : ℤ, a * 100 = (z : ℚ)) →
      ∃ u2 : User,
        getUser (createNewRound initialEngine wDB (0 : ℚ) 0).2.1 uid = some u2 ∧
        u2.id = u.id ∧ u2.username = u.username ∧ u2.password = u.password ∧
        parseFloatJS u2.balance =
          some (bal + winCredit { color := prev.result, number := prev.number }
            uid (getBetsByRoundId wDB prev.id)))) :=
  ⟨by decide, tick_settles_previous_round initialEngine wDB (0 : ℚ) 0 (by decide)⟩

/-! ### Claim about user creation (C10) -/

/-- C10: every user created through `createUser` is stored with balance
exactly `"50.00"`, regardless of the registration input — even an input that
smuggles a `balance` field cannot change it, because the source writes
`balance: "50.00"` after spreading the input. -/
theorem createUser_initial_balance (db : DB) (ins : RegisterInput) :
    (createUser db ins).2.balance = "50.00" ∧
    (createUser db ins).1.users.head? = some (createUser db ins).2 :=
  ⟨rfl, rfl⟩

end Wingocash
